import Mathlib

/-!
Verification of the `radium` target-capability probe (`build.rs`) and the
`has_atomic!` capability macro (`src/has_atomic.rs`).

Strings are modelled as `List Char`.  The build script's behaviour is embedded
as pure functions: the exact-target match pass, the architecture match pass,
and the directive emission loop.  The macro's five width-specific `cfg` guard
lists are embedded as lists of `Cfg` conditions evaluated against a
compile-time environment.
-/

/-- Collection of flags indicating whether the target processor supports
atomic instructions for a certain width (struct `Atomics` in `build.rs`). -/
structure Atomics where
  has_8 : Bool
  has_16 : Bool
  has_32 : Bool
  has_64 : Bool
  has_ptr : Bool
deriving DecidableEq, Repr

/-- `Atomics::ALL` in `build.rs`: every flag true. -/
def Atomics.ALL : Atomics :=
  { has_8 := true, has_16 := true, has_32 := true, has_64 := true, has_ptr := true }

/-- `Atomics::NONE` in `build.rs`: every flag false. -/
def Atomics.NONE : Atomics :=
  { has_8 := false, has_16 := false, has_32 := false, has_64 := false, has_ptr := false }

/-- The five atomic widths selectable by the macro. -/
inductive Width
  | w8
  | w16
  | w32
  | w64
  | wptr
deriving DecidableEq, Repr

/-- Project the flag of a given width out of an `Atomics` record. -/
def Atomics.flag (a : Atomics) : Width → Bool
  | Width.w8 => a.has_8
  | Width.w16 => a.has_16
  | Width.w32 => a.has_32
  | Width.w64 => a.has_64
  | Width.wptr => a.has_ptr

/-- The `cargo:rustc-cfg=radium_missing_*` directives the build script can
emit. -/
inductive Directive
  | missing_8
  | missing_16
  | missing_32
  | missing_64
  | missing_ptr
deriving DecidableEq, Repr

/-- The directive corresponding to a width. -/
def dirOf : Width → Directive
  | Width.w8 => Directive.missing_8
  | Width.w16 => Directive.missing_16
  | Width.w32 => Directive.missing_32
  | Width.w64 => Directive.missing_64
  | Width.wptr => Directive.missing_ptr

/-- The two ways `main` in `build.rs` can fail: the `TARGET` environment
variable is absent (the `?` on `std::env::var`), or the
`ok_or("Invalid target triple")` branch fires. -/
inductive BuildError
  | envVarNotPresent
  | invalidTargetTriple
deriving DecidableEq, Repr

/-- Rust's `str::split('-')` on a character list: the list of maximal
segments separated by `'-'`.  On the empty string it yields `[[]]`, exactly
as Rust's `split` yields one empty item. -/
def splitDash : List Char → List (List Char)
  | [] => [[]]
  | c :: rest =>
    if c = '-' then
      [] :: splitDash rest
    else
      match splitDash rest with
      | [] => [[c]]
      | s :: ss => (c :: s) :: ss

/-- The text before the first `'-'` (the architecture component of a target
triple); the whole string when no `'-'` occurs. -/
def firstComponent (t : List Char) : List Char :=
  t.takeWhile (fun c => c != '-')

/-- The exact-target `match &*target` block in `build.rs`.  In this revision
it has only the wildcard arm, so it changes nothing. -/
def exactPass (target : List Char) (atomics : Atomics) : Atomics :=
  match target with
  | _ => atomics

/-- The full-identifier keys of the exact-target match: none in this
revision. -/
def exactKeys : List (List Char) := []

/-- The `match arch` block in `build.rs`: `"riscv32i" | "riscv32imc"` set the
record to `NONE`; `"riscv32imac"` clears only `has_64`; anything else is
untouched. -/
def archPass (arch : List Char) (atomics : Atomics) : Atomics :=
  if arch = "riscv32i".toList ∨ arch = "riscv32imc".toList then
    Atomics.NONE
  else if arch = "riscv32imac".toList then
    { atomics with has_64 := false }
  else
    atomics

/-- The architecture keys of the `match arch` block. -/
def archKeys : List (List Char) :=
  ["riscv32i".toList, "riscv32imc".toList, "riscv32imac".toList]

/-- The emission loop of `build.rs`: for each width whose flag is false,
print the `radium_missing_*` directive, in source order 8, 16, 32, 64,
ptr. -/
def emit (a : Atomics) : List Directive :=
  (if !a.has_8 then [Directive.missing_8] else [])
    ++ (if !a.has_16 then [Directive.missing_16] else [])
    ++ (if !a.has_32 then [Directive.missing_32] else [])
    ++ (if !a.has_64 then [Directive.missing_64] else [])
    ++ (if !a.has_ptr then [Directive.missing_ptr] else [])

/-- `main` in `build.rs`.  The input is the `TARGET` environment variable
(`none` when it is unset).  Starts from `ALL`, applies the exact-target
match, extracts the architecture with `split('-').next().ok_or(...)`, applies
the architecture match, and returns the final record together with the
emitted directives. -/
def probe (envTarget : Option (List Char)) :
    Except BuildError (Atomics × List Directive) :=
  match envTarget with
  | none => Except.error BuildError.envVarNotPresent
  | some target =>
    let atomics := exactPass target Atomics.ALL
    match (splitDash target).head? with
    | none => Except.error BuildError.invalidTargetTriple
    | some arch =>
      let atomics := archPass arch atomics
      Except.ok (atomics, emit atomics)

/-- The compile-time facts visible to the `has_atomic!` macro: the set of
`radium_missing_*` cfg directives deposited by the build script, and the
`target_arch` / `target_os` attributes of the compilation target. -/
structure CfgEnv where
  directives : List Directive
  target_arch : List Char
  target_os : List Char

/-- A `cfg` condition as used inside the macro's `not(any(...))` guards:
a `radium_missing_*` flag, a `target_arch = "..."` test, a
`target_os = "..."` test, or an `all(...)` conjunction of two conditions. -/
inductive Cfg
  | flag : Directive → Cfg
  | arch_is : List Char → Cfg
  | os_is : List Char → Cfg
  | both : Cfg → Cfg → Cfg
deriving DecidableEq

/-- Evaluate a `cfg` condition in a compile-time environment. -/
def Cfg.eval (env : CfgEnv) : Cfg → Bool
  | Cfg.flag d => decide (d ∈ env.directives)
  | Cfg.arch_is a => decide (env.target_arch = a)
  | Cfg.os_is o => decide (env.target_os = o)
  | Cfg.both c1 c2 => c1.eval env && c2.eval env

/-- Whether a condition tests raw target attributes rather than a directive
deposited by the build script. -/
def Cfg.isAttr : Cfg → Bool
  | Cfg.flag _ => false
  | _ => true

/-- The five width-specific exclusion lists of `has_atomic!` in
`src/has_atomic.rs`, in source order.  Widths 8, 16, 32 and ptr list only
their `radium_missing_*` directive; width 64 additionally lists
`all(target_arch = "arm", target_os = "android")`, `target_arch = "mips"`,
`target_arch = "mipsel"` and `target_arch = "powerpc"`. -/
def exclusionList : Width → List Cfg
  | Width.w8 => [Cfg.flag Directive.missing_8]
  | Width.w16 => [Cfg.flag Directive.missing_16]
  | Width.w32 => [Cfg.flag Directive.missing_32]
  | Width.w64 =>
    [Cfg.flag Directive.missing_64,
     Cfg.both (Cfg.arch_is "arm".toList) (Cfg.os_is "android".toList),
     Cfg.arch_is "mips".toList,
     Cfg.arch_is "mipsel".toList,
     Cfg.arch_is "powerpc".toList]
  | Width.wptr => [Cfg.flag Directive.missing_ptr]

/-- The macro drops a wrapped item exactly when some entry of the width's
`any(...)` list evaluates true. -/
def excluded (env : CfgEnv) (w : Width) : Bool :=
  (exclusionList w).any (Cfg.eval env)

/-- `has_atomic!(w items)`: each item is kept verbatim when the width's
`cfg(not(any(...)))` guard holds and elided entirely otherwise. -/
def has_atomic (env : CfgEnv) (w : Width) (items : List α) : List α :=
  if excluded env w then [] else items

/-- The number of attribute-based (non-directive) entries in a width's
exclusion list. -/
def attrCount (w : Width) : Nat :=
  ((exclusionList w).filter Cfg.isAttr).length

/-- Downgrade order on capability records: `Atomics.le x y` holds when every
flag true in `x` is already true in `y`, i.e. passing from `y` to `x` never
turns a flag from false to true. -/
def Atomics.le (x y : Atomics) : Prop :=
  (x.has_8 = true → y.has_8 = true)
    ∧ (x.has_16 = true → y.has_16 = true)
    ∧ (x.has_32 = true → y.has_32 = true)
    ∧ (x.has_64 = true → y.has_64 = true)
    ∧ (x.has_ptr = true → y.has_ptr = true)

/-! ### Helper lemmas -/

/-- `splitDash` never returns the empty list: Rust's `split` always yields at
least one item. -/
theorem splitDash_ne_nil (t : List Char) : splitDash t ≠ [] := by
  cases t with
  | nil => simp [splitDash]
  | cons c rest =>
    by_cases h : c = '-'
    · simp [splitDash, h]
    · simp only [splitDash, if_neg h]
      cases hr : splitDash rest with
      | nil => simp
      | cons s ss => simp

/-- The first item of `splitDash` is the text before the first `'-'`. -/
theorem splitDash_head (t : List Char) :
    (splitDash t).head? = some (firstComponent t) := by
  induction t with
  | nil => rfl
  | cons c rest ih =>
    by_cases h : c = '-'
    · simp [splitDash, firstComponent, h]
    · simp only [splitDash, if_neg h]
      cases hr : splitDash rest with
      | nil => exact absurd hr (splitDash_ne_nil rest)
      | cons s ss =>
        rw [hr] at ih
        simp only [List.head?] at ih
        simp only [List.head?, firstComponent, List.takeWhile]
        simp [firstComponent] at ih
        have hc : (c != '-') = true := by simp [h]
        simp [hc, ih]

/-- The exact-target pass is the identity in this revision (its `match` has
only the wildcard arm). -/
theorem exactPass_eq (t : List Char) (a : Atomics) : exactPass t a = a := rfl

/-- The architecture pass only ever lowers flags. -/
theorem archPass_le (arch : List Char) (a : Atomics) :
    Atomics.le (archPass arch a) a := by
  unfold archPass Atomics.le
  split
  · simp [Atomics.NONE]
  · split
    · simp
    · simp

/-- An architecture matching no key of the `match arch` block leaves the
record untouched. -/
theorem archPass_not_mem (arch : List Char) (h : arch ∉ archKeys) (a : Atomics) :
    archPass arch a = a := by
  simp only [archKeys, List.mem_cons, List.not_mem_nil, or_false, not_or] at h
  unfold archPass
  rw [if_neg (by tauto), if_neg (by tauto)]

/-- Evaluating the probe on a present target: the exact-target pass is the
identity, the architecture extraction always succeeds, and the result is the
architecture pass applied to `ALL` together with its emitted directives. -/
theorem probe_some (t : List Char) :
    probe (some t)
      = Except.ok (archPass (firstComponent t) Atomics.ALL,
          emit (archPass (firstComponent t) Atomics.ALL)) := by
  simp only [probe]
  rw [splitDash_head]
  rfl

/-- The downgrade order is reflexive. -/
theorem Atomics.le_refl (a : Atomics) : Atomics.le a a := by
  unfold Atomics.le
  exact ⟨id, id, id, id, id⟩

/-- The 64-bit exclusion guard of the macro fires exactly on the five
triggers listed in `src/has_atomic.rs`. -/
theorem excluded_w64_iff (env : CfgEnv) :
    excluded env Width.w64 = true
      ↔ (Directive.missing_64 ∈ env.directives
          ∨ (env.target_arch = "arm".toList ∧ env.target_os = "android".toList)
          ∨ env.target_arch = "mips".toList
          ∨ env.target_arch = "mipsel".toList
          ∨ env.target_arch = "powerpc".toList) := by
  simp [excluded, exclusionList, Cfg.eval, List.any_cons, List.any_nil,
    Bool.or_eq_true, Bool.and_eq_true, decide_eq_true_eq]

/-! ### Claims -/

/-- C1: a target matching no entry of the exact-match table, whose
architecture component matches no entry of the architecture table, yields the
`ALL` record and zero missing directives. -/
theorem c1_unlisted_target_is_all (t : List Char) (h1 : t ∉ exactKeys)
    (h2 : firstComponent t ∉ archKeys) :
    probe (some t) = Except.ok (Atomics.ALL, []) := by
  rw [probe_some, archPass_not_mem _ h2]
  rfl

theorem c1_witness :
    ("x86_64-unknown-linux-gnu".toList ∉ exactKeys
        ∧ firstComponent "x86_64-unknown-linux-gnu".toList ∉ archKeys)
      ∧ probe (some "x86_64-unknown-linux-gnu".toList)
          = Except.ok (Atomics.ALL, []) :=
  ⟨⟨by decide, by decide⟩, c1_unlisted_target_is_all _ (by decide) (by decide)⟩

/-- C2: a target whose architecture component is `riscv32i` or `riscv32imc`
yields the `NONE` record and exactly the five missing directives, for widths
8, 16, 32, 64 and ptr. -/
theorem c2_riscv32_no_atomics (t : List Char)
    (h : firstComponent t = "riscv32i".toList
        ∨ firstComponent t = "riscv32imc".toList) :
    probe (some t)
      = Except.ok (Atomics.NONE,
          [Directive.missing_8, Directive.missing_16, Directive.missing_32,
           Directive.missing_64, Directive.missing_ptr]) := by
  rw [probe_some]
  have harch : archPass (firstComponent t) Atomics.ALL = Atomics.NONE := by
    unfold archPass
    rw [if_pos h]
  rw [harch]
  rfl

theorem c2_witness :
    (firstComponent "riscv32imc-unknown-none-elf".toList = "riscv32i".toList
        ∨ firstComponent "riscv32imc-unknown-none-elf".toList = "riscv32imc".toList)
      ∧ probe (some "riscv32imc-unknown-none-elf".toList)
          = Except.ok (Atomics.NONE,
              [Directive.missing_8, Directive.missing_16, Directive.missing_32,
               Directive.missing_64, Directive.missing_ptr]) :=
  ⟨by decide, c2_riscv32_no_atomics _ (by decide)⟩

/-- C3: a target whose architecture component is `riscv32imac` yields a
record with only the 64-bit flag false and exactly the one missing-64
directive. -/
theorem c3_riscv32imac_missing_64 (t : List Char)
    (h : firstComponent t = "riscv32imac".toList) :
    probe (some t)
      = Except.ok
          ({ has_8 := true, has_16 := true, has_32 := true, has_64 := false,
             has_ptr := true },
           [Directive.missing_64]) := by
  rw [probe_some]
  have harch : archPass (firstComponent t) Atomics.ALL
      = { has_8 := true, has_16 := true, has_32 := true, has_64 := false,
          has_ptr := true } := by
    unfold archPass
    rw [if_neg (by rw [h]; decide), if_pos h]
    rfl
  rw [harch]
  rfl

theorem c3_witness :
    firstComponent "riscv32imac-unknown-none-elf".toList = "riscv32imac".toList
      ∧ probe (some "riscv32imac-unknown-none-elf".toList)
          = Except.ok
              ({ has_8 := true, has_16 := true, has_32 := true, has_64 := false,
                 has_ptr := true },
               [Directive.missing_64]) :=
  ⟨by decide, c3_riscv32imac_missing_64 _ (by decide)⟩

/-- C8: the record starts at `ALL` and both lookup passes only ever
downgrade it: after the exact-target pass and after the architecture pass, no
flag has moved from false to true. -/
theorem c8_only_downgrades (t : List Char) :
    Atomics.le (exactPass t Atomics.ALL) Atomics.ALL
      ∧ Atomics.le (archPass (firstComponent t) (exactPass t Atomics.ALL))
          (exactPass t Atomics.ALL) :=
  ⟨by rw [exactPass_eq]; exact Atomics.le_refl _, archPass_le _ _⟩

/-- C9: the probe's output depends only on the architecture component: two
targets with the same text before the first `'-'` produce the same record and
the same directives. -/
theorem c9_output_depends_only_on_arch (t1 t2 : List Char)
    (h : firstComponent t1 = firstComponent t2) :
    probe (some t1) = probe (some t2) := by
  rw [probe_some, probe_some, h]

theorem c9_witness :
    firstComponent "riscv32imac-unknown-none-elf".toList
        = firstComponent "riscv32imac-pc-windows-msvc".toList
      ∧ probe (some "riscv32imac-unknown-none-elf".toList)
          = probe (some "riscv32imac-pc-windows-msvc".toList) :=
  ⟨by decide, c9_output_depends_only_on_arch _ _ (by decide)⟩

/-- C10: architecture extraction never fails: the first item of the split is
always present (the whole string when no `'-'` occurs), so the
`Invalid target triple` branch is unreachable and the only fatal failure of
the probe is the absent `TARGET` environment value. -/
theorem c10_arch_extraction_total :
    (∀ t : List Char, (splitDash t).head? = some (firstComponent t))
      ∧ (∀ t : List Char, Char.ofNat 45 ∉ t → firstComponent t = t)
      ∧ ∀ (o : Option (List Char)) (e : BuildError),
          probe o = Except.error e
            → o = none ∧ e = BuildError.envVarNotPresent := by
  refine ⟨splitDash_head, ?_, ?_⟩
  · intro t h
    refine List.takeWhile_eq_self_iff.mpr ?_
    intro c hc
    have : c ≠ '-' := fun he => h (he ▸ hc)
    simp [this]
  · intro o e h
    cases o with
    | none =>
      refine ⟨rfl, ?_⟩
      simp only [probe] at h
      exact (Except.error.inj h).symm
    | some t =>
      rw [probe_some] at h
      exact Except.noConfusion h

theorem c10_witness :
    (Char.ofNat 45 ∉ "wasm32".toList
        ∧ firstComponent "wasm32".toList = "wasm32".toList)
      ∧ ((none : Option (List Char)) = none
          ∧ BuildError.envVarNotPresent = BuildError.envVarNotPresent) :=
  ⟨⟨by decide, c10_arch_extraction_total.2.1 _ (by decide)⟩,
   c10_arch_extraction_total.2.2 none BuildError.envVarNotPresent rfl⟩

/-- C4 counterexample: the probe's record for `mips-unknown-linux-gnu` is
`ALL`, so in particular its 64-bit flag is true, contradicting the claim that
the probe's record has the 64-bit flag false; the probe also emits no
directive for this target. -/
theorem c4_counterexample :
    probe (some "mips-unknown-linux-gnu".toList) = Except.ok (Atomics.ALL, [])
      ∧ Atomics.ALL.has_64 = true :=
  ⟨rfl, rfl⟩

/-- C4 amended: the probe leaves `mips-unknown-linux-gnu` at `ALL` with no
directives; the 64-bit deficiency of this target is instead handled by the
capability macro, whose guards — evaluated with the probe's (empty) directive
set and the target attributes `target_arch = "mips"`, `target_os = "linux"` —
exclude exactly the 64-bit width and no other. -/
theorem c4_mips_excluded_by_macro :
    probe (some "mips-unknown-linux-gnu".toList) = Except.ok (Atomics.ALL, [])
      ∧ ∀ w : Width,
          excluded
              { directives := [], target_arch := "mips".toList,
                target_os := "linux".toList } w = true
            ↔ w = Width.w64 := by
  refine ⟨rfl, ?_⟩
  intro w
  cases w
  all_goals decide

/-- C5: the macro's 64-bit rule elides a wrapped item exactly when the
`radium_missing_64` directive is set, or the target is `arm`/`android`, or
the architecture is `mips`, `mipsel` or `powerpc`; and its attribute-based
exclusion list is strictly larger than that of every other width. -/
theorem c5_w64_exclusion_largest :
    (∀ (env : CfgEnv) (item : Nat),
        has_atomic env Width.w64 [item] = []
          ↔ (Directive.missing_64 ∈ env.directives
              ∨ (env.target_arch = "arm".toList ∧ env.target_os = "android".toList)
              ∨ env.target_arch = "mips".toList
              ∨ env.target_arch = "mipsel".toList
              ∨ env.target_arch = "powerpc".toList))
      ∧ ∀ w : Width, w ≠ Width.w64 → attrCount w < attrCount Width.w64 := by
  constructor
  · intro env item
    rw [← excluded_w64_iff]
    unfold has_atomic
    split
    · simp [*]
    · simp only [List.cons_ne_nil, false_iff]
      simp [*]
  · intro w h
    cases w
    case w64 => exact absurd rfl h
    all_goals decide

theorem c5_witness :
    (has_atomic
        { directives := [Directive.missing_64], target_arch := "x86".toList,
          target_os := "linux".toList } Width.w64 [0] = ([] : List Nat))
      ∧ attrCount Width.w8 < attrCount Width.w64 :=
  ⟨(c5_w64_exclusion_largest.1 _ 0).mpr (Or.inl (by decide)),
   c5_w64_exclusion_largest.2 Width.w8 (by decide)⟩

/-- C6 counterexample: a present target identifier with no `'-'` separator
does not abort the probe — the claim says it must fail fatally, but the probe
completes and returns the `ALL` record with no directives. -/
theorem c6_counterexample :
    probe (some "wasm32".toList) = Except.ok (Atomics.ALL, []) :=
  rfl

/-- C6 amended: the probe fails fatally exactly when the target identifier
cannot be read from the build environment; whenever an identifier is present,
even one with no separator, the probe completes successfully. -/
theorem c6_fatal_only_when_env_absent :
    probe none = Except.error BuildError.envVarNotPresent
      ∧ ∀ t : List Char, ∃ r, probe (some t) = Except.ok r := by
  refine ⟨rfl, ?_⟩
  intro t
  exact ⟨_, probe_some t⟩

/-- C7: for each width, the probe emits the missing-width directive iff that
width's flag in the final record is false, and the macro's guard for the same
width treats the presence of that directive as an exclusion trigger. -/
theorem c7_polarity_consistent :
    (∀ (a : Atomics) (w : Width), dirOf w ∈ emit a ↔ a.flag w = false)
      ∧ ∀ (env : CfgEnv) (w : Width),
          dirOf w ∈ env.directives → excluded env w = true := by
  constructor
  · intro a w
    cases a with
    | mk h8 h16 h32 h64 hp =>
      cases w <;> cases h8 <;> cases h16 <;> cases h32 <;> cases h64 <;> cases hp
        <;> decide
  · intro env w h
    cases w <;> simp [excluded, exclusionList, Cfg.eval, dirOf] at h ⊢ <;> simp [h]

theorem c7_witness :
    (dirOf Width.w8 ∈ emit Atomics.NONE ∧ Atomics.NONE.flag Width.w8 = false)
      ∧ excluded
          { directives := [Directive.missing_8], target_arch := "x86".toList,
            target_os := "linux".toList } Width.w8 = true :=
  ⟨⟨(c7_polarity_consistent.1 Atomics.NONE Width.w8).mpr (by decide), by decide⟩,
   c7_polarity_consistent.2 _ Width.w8 (by decide)⟩
